import Mathlib

/-!
Verification of the replicated-schema async migration
(posthog/async_migrations/migrations/0004_replicated_schema.py).

The development shallowly embeds the migration's plan construction, the
partition mover, the rename helper, the precondition checks and the
engine-string substitution over an explicit cluster-catalog state, and
proves or refutes the specified properties about them.
-/

/-! ## Model of the engine-string substitution

The source replaces the current table engine via
re.sub applied with the pattern dot-star MergeTree open-paren
one-or-more-non-close-paren close-paren, a replacement string, and the
current engine string.  We model exactly this substitution on lists of
characters: the dot character class matches any character except a
newline, the star is greedy, and all non-overlapping matches are
replaced left to right, continuing after each match.
-/

/-- The literal part of the substitution pattern, as a character list. -/
def MTlit : List Char := "MergeTree(".toList

/-- Checks whether the first list is an initial segment of the second. -/
def leadsWith : List Char → List Char → Bool
  | [], _ => true
  | _ :: _, [] => false
  | a :: as, b :: bs => a == b && leadsWith as bs

/-- Checks whether the first list occurs as a contiguous run inside the second. -/
def hasSub (needle : List Char) : List Char → Bool
  | [] => leadsWith needle []
  | c :: rest => leadsWith needle (c :: rest) || hasSub needle rest

/-- Consumes characters up to and including the first close-paren,
returning what follows it; none when no close-paren exists. -/
def firstParen : List Char → Option (List Char)
  | [] => none
  | c :: rest => if c == ')' then some rest else firstParen rest

/-- Matches the bracket part of the pattern: one or more characters that
are not a close-paren, then a close-paren; returns the characters after
the close-paren. -/
def argsEnd : List Char → Option (List Char)
  | [] => none
  | c :: rest => if c == ')' then none else firstParen rest

/-- Attempts the pattern at the head of the list.  The greedy dot-star
prefers the latest viable literal start, and cannot cross a newline;
on success the characters after the match are returned. -/
def tryMatch : List Char → Option (List Char)
  | [] => none
  | c :: rest =>
    match (if c == '\n' then none else tryMatch rest) with
    | some r => some r
    | none =>
      if leadsWith MTlit (c :: rest) then argsEnd (List.drop MTlit.length (c :: rest))
      else none

/-- Scans the input left to right, replacing every match of the pattern
with the replacement and continuing after the match; fuelled so that the
recursion is structural.  The fuel is always instantiated with the input
length, which suffices because every step consumes at least one input
character. -/
def pySubAux (repl : List Char) : Nat → List Char → List Char
  | 0, l => l
  | _ + 1, [] => []
  | fuel + 1, c :: rest =>
    match tryMatch (c :: rest) with
    | some suffix => repl ++ pySubAux repl fuel suffix
    | none => c :: pySubAux repl fuel rest

/-- Replaces every occurrence of the pattern in the input with the
replacement, exactly as the source's regex substitution does. -/
def pySub (repl : List Char) (l : List Char) : List Char :=
  pySubAux repl l.length l

theorem firstParen_length {l r : List Char} (h : firstParen l = some r) :
    r.length < l.length := by
  induction l with
  | nil => simp [firstParen] at h
  | cons c rest ih =>
    by_cases hc : c == ')'
    · simp only [firstParen, hc, if_true, Option.some.injEq] at h
      subst h
      simp only [List.length_cons]
      omega
    · simp only [firstParen, hc, if_false, Bool.false_eq_true] at h
      have := ih h
      simp only [List.length_cons]
      omega

theorem argsEnd_length {l r : List Char} (h : argsEnd l = some r) :
    r.length < l.length := by
  cases l with
  | nil => simp [argsEnd] at h
  | cons c rest =>
    by_cases hc : c == ')'
    · simp [argsEnd, hc] at h
    · simp only [argsEnd, hc, if_false, Bool.false_eq_true] at h
      have := firstParen_length h
      simp only [List.length_cons]
      omega

theorem tryMatch_length {l r : List Char} (h : tryMatch l = some r) :
    r.length < l.length := by
  induction l with
  | nil => simp [tryMatch] at h
  | cons c rest ih =>
    have hd : (List.drop MTlit.length (c :: rest)).length ≤ (c :: rest).length := by
      simp [List.length_drop]
    unfold tryMatch at h
    by_cases hc : c == '\n'
    · simp only [hc, if_true] at h
      by_cases hm : leadsWith MTlit (c :: rest)
      · simp only [hm, if_true] at h
        exact lt_of_lt_of_le (argsEnd_length h) hd
      · simp [hm] at h
    · simp only [hc, if_false, Bool.false_eq_true] at h
      cases htm : tryMatch rest with
      | some r2 =>
        rw [htm] at h
        simp only [Option.some.injEq] at h
        subst h
        have := ih htm
        simp only [List.length_cons]
        omega
      | none =>
        rw [htm] at h
        simp only [] at h
        by_cases hm : leadsWith MTlit (c :: rest)
        · simp only [hm, if_true] at h
          exact lt_of_lt_of_le (argsEnd_length h) hd
        · simp [hm] at h

theorem pySubAux_fuel {repl : List Char} :
    ∀ (fuel₁ fuel₂ : Nat) (l : List Char), l.length ≤ fuel₁ → l.length ≤ fuel₂ →
      pySubAux repl fuel₁ l = pySubAux repl fuel₂ l := by
  intro fuel₁
  induction fuel₁ with
  | zero =>
    intro fuel₂ l h1 _
    have : l = [] := by
      cases l with
      | nil => rfl
      | cons c rest => simp [List.length_cons] at h1
    subst this
    cases fuel₂ <;> rfl
  | succ f ih =>
    intro fuel₂ l h1 h2
    cases l with
    | nil => cases fuel₂ <;> rfl
    | cons c rest =>
      cases fuel₂ with
      | zero => simp [List.length_cons] at h2
      | succ f2 =>
        simp only [List.length_cons] at h1 h2
        cases htm : tryMatch (c :: rest) with
        | some suffix =>
          have hlen := tryMatch_length htm
          simp only [List.length_cons] at hlen
          simp only [pySubAux, htm]
          rw [ih f2 suffix (by omega) (by omega)]
        | none =>
          simp only [pySubAux, htm]
          rw [ih f2 rest (by omega) (by omega)]

theorem pySub_nil {repl : List Char} : pySub repl [] = [] := rfl

theorem pySub_cons {repl : List Char} (c : Char) (rest : List Char) :
    pySub repl (c :: rest) =
      match tryMatch (c :: rest) with
      | some suffix => repl ++ pySub repl suffix
      | none => c :: pySub repl rest := by
  unfold pySub
  cases htm : tryMatch (c :: rest) with
  | some suffix =>
    have hlen := tryMatch_length htm
    simp only [List.length_cons] at hlen
    simp only [List.length_cons, pySubAux, htm]
    rw [pySubAux_fuel rest.length suffix.length suffix (by omega) (by omega)]
  | none =>
    simp only [List.length_cons, pySubAux, htm]

theorem hasSub_cons_false {needle : List Char} {c : Char} {rest : List Char}
    (h : hasSub needle (c :: rest) = false) : hasSub needle rest = false := by
  simp only [hasSub, Bool.or_eq_false_iff] at h
  exact h.2

theorem tryMatch_of_noSub {l : List Char} (h : hasSub MTlit l = false) :
    tryMatch l = none := by
  induction l with
  | nil => rfl
  | cons c rest ih =>
    have hlw : leadsWith MTlit (c :: rest) = false := by
      simp only [hasSub, Bool.or_eq_false_iff] at h
      exact h.1
    have hrest := hasSub_cons_false h
    unfold tryMatch
    rw [ih hrest, hlw]
    by_cases hc : c == '\n' <;> simp [hc]

theorem pySub_of_noSub {repl l : List Char} (h : hasSub MTlit l = false) :
    pySub repl l = l := by
  induction l with
  | nil => exact pySub_nil
  | cons c rest ih =>
    rw [pySub_cons, tryMatch_of_noSub h]
    rw [ih (hasSub_cons_false h)]

theorem hasSub_append_false {needle : List Char} {h0 : Char} {ntail xs ys : List Char}
    (hn : needle = h0 :: ntail) (hx : ∀ c ∈ xs, ¬c = h0)
    (hy : hasSub needle ys = false) : hasSub needle (xs ++ ys) = false := by
  induction xs with
  | nil => simpa using hy
  | cons x xs ih =>
    have hxx : ¬x = h0 := hx x (by simp)
    have hxs : ∀ c ∈ xs, ¬c = h0 := fun c hc => hx c (by simp [hc])
    simp only [List.cons_append, hasSub, Bool.or_eq_false_iff]
    constructor
    · subst hn
      simp only [leadsWith, Bool.and_eq_false_iff]
      left
      simp only [beq_eq_false_iff_ne, ne_eq]
      intro hcontra
      exact hxx hcontra.symm
    · exact ih hxs

theorem hasSub_append_right_false {needle xs ys : List Char}
    (h : hasSub needle (xs ++ ys) = false) : hasSub needle ys = false := by
  induction xs with
  | nil => simpa using h
  | cons x xs ih =>
    simp only [List.cons_append] at h
    exact ih (hasSub_cons_false h)

theorem leadsWith_append_self (n m : List Char) : leadsWith n (n ++ m) = true := by
  induction n with
  | nil => rfl
  | cons a as ih => simp [leadsWith, ih]

theorem firstParen_no_close {xs rest : List Char} (hx : ∀ c ∈ xs, ¬c = ')') :
    firstParen (xs ++ ')' :: rest) = some rest := by
  induction xs with
  | nil => simp [firstParen]
  | cons x xs ih =>
    have hxx : ¬x = ')' := hx x (by simp)
    have hxs : ∀ c ∈ xs, ¬c = ')' := fun c hc => hx c (by simp [hc])
    simp only [List.cons_append, firstParen]
    rw [if_neg (by simpa using hxx)]
    exact ih hxs

theorem argsEnd_args {args rest : List Char} (hne : args ≠ [])
    (hargs : ∀ c ∈ args, ¬c = ')') :
    argsEnd (args ++ ')' :: rest) = some rest := by
  cases args with
  | nil => exact absurd rfl hne
  | cons a as =>
    have ha : ¬a = ')' := hargs a (by simp)
    have has : ∀ c ∈ as, ¬c = ')' := fun c hc => hargs c (by simp [hc])
    simp only [List.cons_append, argsEnd]
    rw [if_neg (by simpa using ha)]
    exact firstParen_no_close has

theorem tryMatch_finds (pre args rest : List Char)
    (hpre : ∀ c ∈ pre, ¬c = '\n') (hne : args ≠ [])
    (hargs : ∀ c ∈ args, ¬c = ')')
    (hafter : hasSub MTlit (args ++ ')' :: rest) = false) :
    tryMatch (pre ++ MTlit ++ args ++ ')' :: rest) = some rest := by
  induction pre with
  | cons p pre ih =>
    have hp : ¬p = '\n' := hpre p (by simp)
    have hps : ∀ c ∈ pre, ¬c = '\n' := fun c hc => hpre c (by simp [hc])
    have ihr := ih hps
    simp only [List.cons_append, List.append_assoc] at ihr ⊢
    unfold tryMatch
    rw [if_neg (by simpa using hp)]
    rw [ihr]
  | nil =>
    have hMT : MTlit = 'M' :: "ergeTree(".toList := by decide
    have htail : ∀ c ∈ "ergeTree(".toList, ¬c = 'M' := by decide
    have hdeep : hasSub MTlit ("ergeTree(".toList ++ (args ++ ')' :: rest)) = false :=
      hasSub_append_false hMT htail hafter
    have hdeep2 : tryMatch ("ergeTree(".toList ++ (args ++ ')' :: rest)) = none :=
      tryMatch_of_noSub hdeep
    have hshape : ([] : List Char) ++ MTlit ++ args ++ ')' :: rest =
        'M' :: ("ergeTree(".toList ++ (args ++ ')' :: rest)) := by
      rw [hMT]
      simp
    rw [hshape]
    unfold tryMatch
    rw [if_neg (by decide)]
    rw [hdeep2]
    have hlw : leadsWith MTlit ('M' :: ("ergeTree(".toList ++ (args ++ ')' :: rest))) = true := by
      have : 'M' :: ("ergeTree(".toList ++ (args ++ ')' :: rest)) =
          MTlit ++ (args ++ ')' :: rest) := by
        rw [hMT]
        simp
      rw [this]
      exact leadsWith_append_self _ _
    rw [hlw]
    simp only [if_true]
    have hdrop : List.drop MTlit.length
        ('M' :: ("ergeTree(".toList ++ (args ++ ')' :: rest))) = args ++ ')' :: rest := by
      have : 'M' :: ("ergeTree(".toList ++ (args ++ ')' :: rest)) =
          MTlit ++ (args ++ ')' :: rest) := by
        rw [hMT]
        simp
      rw [this, List.drop_left]
    rw [hdrop]
    exact argsEnd_args hne hargs

theorem pySub_of_tryMatch {repl l r : List Char} (h : tryMatch l = some r) :
    pySub repl l = repl ++ pySub repl r := by
  cases l with
  | nil => simp [tryMatch] at h
  | cons c rest =>
    rw [pySub_cons, h]

/-- Core substitution result: on an input made of a newline-free preamble,
the constructor token, and trailing text free of further constructor
tokens, the substitution yields the replacement followed verbatim by the
trailing text. -/
theorem pySub_single_token (repl pre args rest : List Char)
    (hpre : ∀ c ∈ pre, ¬c = '\n') (hne : args ≠ [])
    (hargs : ∀ c ∈ args, ¬c = ')')
    (hafter : hasSub MTlit (args ++ ')' :: rest) = false) :
    pySub repl (pre ++ MTlit ++ args ++ ')' :: rest) = repl ++ rest := by
  have hm := tryMatch_finds pre args rest hpre hne hargs hafter
  rw [pySub_of_tryMatch hm]
  have hrest : hasSub MTlit rest = false := by
    have : args ++ ')' :: rest = (args ++ [')']) ++ rest := by simp
    rw [this] at hafter
    exact hasSub_append_right_false hafter
  rw [pySub_of_noSub hrest]

/-! ## Data model

The table-migration descriptors.  The source uses a dataclass plus a
subclass for sharded tables; per the spec's design notes the subclass is
represented here as a tagged optional payload on the base record. -/

/-- Modelled from the spec: the target engine descriptor (the concrete
MergeTreeEngine class lives in ee.clickhouse.sql.table_engines, which is
not among the supplied sources).  Per the spec it carries a uniquifying
zookeeper-path key derived from the current timestamp; rendering the
engine text places that key between a fixed head and tail. -/
structure MergeTreeEngine where
  beforeKey : String
  afterKey : String
deriving DecidableEq

/-- Modelled from the spec: the full engine text with the given
zookeeper-path key spliced in. -/
def MergeTreeEngine.render (e : MergeTreeEngine) (zookeeperPathKey : String) : String :=
  e.beforeKey ++ zookeeperPathKey ++ e.afterKey

/-- The sharded-table extras of ShardedTableMigrationData. -/
structure ShardedExtra where
  rename_to : String
  extra_tables : List (String × String)
  materialized_view_name : String
  create_materialized_view : String
deriving DecidableEq

/-- One table's migration descriptor (TableMigrationData in the source;
a present sharded payload corresponds to ShardedTableMigrationData). -/
structure TableMigrationData where
  name : String
  new_table_engine : MergeTreeEngine
  kafka_table_name : Option String
  create_kafka_table : Option String
  sharded : Option ShardedExtra
deriving DecidableEq

/-- Renamed table name: the override for sharded tables, else the name itself. -/
def TableMigrationData.renamed_table_name (t : TableMigrationData) : String :=
  match t.sharded with
  | some ex => ex.rename_to
  | none => t.name

/-- Backup table name with the fixed migration-id suffix. -/
def TableMigrationData.backup_table_name (t : TableMigrationData) : String :=
  t.name ++ "_backup_0004_replicated_schema"

/-- Temporary table name with the fixed migration-id suffix. -/
def TableMigrationData.tmp_table_name (t : TableMigrationData) : String :=
  t.name ++ "_tmp_0004_replicated_schema"

/-! ## Cluster state

The external store's observable state, as the migration reads and
writes it through its system catalog: the full engine string per table
(none when the table does not exist), the running background-merge
count per table, and the active partition identifiers per table. -/

structure ClusterState where
  engines : String → Option String
  merges : String → Nat
  parts : String → List String

namespace Migration

/-- Engine string of a table from the system catalog, or none when the
table does not exist (get_current_engine in the source). -/
def get_current_engine (s : ClusterState) (table_name : String) : Option String :=
  s.engines table_name

/-- Required-ness check (is_required in the source): the engine string
of the events table must not contain the text Distributed.  When the
events table is absent the source applies the membership test to None,
which raises a TypeError; that raise is the error branch here. -/
def is_required (s : ClusterState) : Except String Bool :=
  match get_current_engine s "events" with
  | none => .error "TypeError: argument of type NoneType is not iterable"
  | some engine => .ok (!(hasSub "Distributed".toList engine.toList))

/-- Precondition check (precheck in the source), over the replication
settings flag and the observed number of cluster nodes. -/
def precheck (clickhouse_replication : Bool) (number_of_nodes : Nat) : Bool × Option String :=
  if !clickhouse_replication then
    (false, some "CLICKHOUSE_REPLICATION env var needs to be set for this migration")
  else if number_of_nodes > 1 then
    (false, some ("ClickHouse cluster should only contain one node at the time of this migration, found "
      ++ toString number_of_nodes))
  else
    (true, none)

/-- New engine statement for a table (get_new_engine in the source):
reads the current engine string from the catalog, stamps the new engine
with the timestamp-derived zookeeper-path key, and substitutes the
maintained engine constructor by the new engine text, keeping every
trailing clause.  When the table is absent the source hands None to
re.sub, which raises a TypeError. -/
def get_new_engine (s : ClusterState) (ts : String) (t : TableMigrationData) :
    Except String String :=
  match get_current_engine s t.name with
  | none => .error "TypeError: expected string or bytes-like object"
  | some current_engine =>
    .ok (String.mk (pySub (t.new_table_engine.render ("am0004_" ++ ts)).toList
      current_engine.toList))

/-- Forward or rollback behaviour of a non-SQL operation, as built by
the source's lambdas: toggling the materialized-columns flag, moving
partitions, or renaming tables. -/
inductive Action where
  | setFlag (value : Bool)
  | movePartitions (fromTable toTable : String)
  | renameTables (rename_1 rename_2 : String × String) (verifyTableExists : Option String)
deriving DecidableEq

/-- One operation of the plan: raw SQL with an optional rollback
statement (AsyncMigrationOperationSQL), or a paired forward/rollback
action (AsyncMigrationOperation). -/
inductive Op where
  | sqlOp (sql : String) (rollback : Option String)
  | fnOp (fn : Action) (rollback_fn : Action)
deriving DecidableEq

/-- SQL text of the create-temporary-table statement, with the
whitespace of the source's triple-quoted f-string. -/
def createTmpSql (t : TableMigrationData) (engine : String) : String :=
  "\n            CREATE TABLE " ++ t.tmp_table_name ++ " AS " ++ t.name
    ++ "\n            ENGINE = " ++ engine ++ "\n            "

/-- Phase-1 operations for one table (replicated_table_operations in
the source): create the temporary table with the new engine, drop the
ingestion table when one exists, move the partitions, and rename. -/
def replicated_table_operations (s : ClusterState) (ts : String) (t : TableMigrationData) :
    Except String (List Op) :=
  match get_new_engine s ts t with
  | .error e => .error e
  | .ok engine =>
    .ok ([Op.sqlOp (createTmpSql t engine) (some ("DROP TABLE IF EXISTS " ++ t.tmp_table_name))]
      ++ (match t.kafka_table_name with
          | some kafka_table => [Op.sqlOp ("DROP TABLE IF EXISTS " ++ kafka_table) t.create_kafka_table]
          | none => [])
      ++ [Op.fnOp (Action.movePartitions t.name t.tmp_table_name)
            (Action.movePartitions t.tmp_table_name t.name),
          Op.fnOp (Action.renameTables (t.name, t.backup_table_name)
              (t.tmp_table_name, t.renamed_table_name) none)
            (Action.renameTables (t.renamed_table_name, t.tmp_table_name)
              (t.backup_table_name, t.name) (some t.backup_table_name))])

/-- Phase-2 operations for one table (finalize_table_operations in the
source): for sharded tables create the extra facade tables and swap the
materialized view; recreate the ingestion table when one exists. -/
def finalize_table_operations (t : TableMigrationData) : List Op :=
  (match t.sharded with
   | some ex => ex.extra_tables.map
       (fun pr => Op.sqlOp pr.2 (some ("DROP TABLE IF EXISTS " ++ pr.1)))
   | none => [])
  ++ (match t.sharded with
      | some ex => [Op.sqlOp ("DROP TABLE IF EXISTS " ++ ex.materialized_view_name) none]
      | none => [])
  ++ (match t.kafka_table_name with
      | some kafka_table =>
        [Op.sqlOp (t.create_kafka_table.getD "") (some ("DROP TABLE IF EXISTS " ++ kafka_table))]
      | none => [])
  ++ (match t.sharded with
      | some ex => [Op.sqlOp ex.create_materialized_view
          (some ("DROP TABLE IF EXISTS " ++ ex.materialized_view_name))]
      | none => [])

/-- Concatenation of the phase-1 blocks of the given tables, in order,
with the first failing expansion aborting the construction. -/
def buildTableOps (s : ClusterState) (ts : String) : List TableMigrationData → Except String (List Op)
  | [] => .ok []
  | t :: rest =>
    match replicated_table_operations s ts t with
    | .error e => .error e
    | .ok ops =>
      match buildTableOps s ts rest with
      | .error e => .error e
      | .ok more => .ok (ops ++ more)

/-- Concatenation of the phase-2 blocks of the given tables, in order. -/
def buildFinalizeOps : List TableMigrationData → List Op
  | [] => []
  | t :: rest => finalize_table_operations t ++ buildFinalizeOps rest

/-! ## Partition mover and rename helper -/

/-- One DDL statement issued by the partition mover. -/
inductive MoveStmt where
  | attachStmt (toTable partition fromTable : String)
  | dropStmt (fromTable partition : String)
deriving DecidableEq

/-- Adds a partition identifier to a table's active set (set semantics:
a second attach of the same identifier leaves the set unchanged). -/
def insertPart (l : List String) (p : String) : List String :=
  if l.contains p then l else l ++ [p]

/-- Effect of ALTER TABLE toTable ATTACH PARTITION p on the catalog.
The semantics of the external store's DDL is modelled after the spec's
description of the attach-then-drop primitive. -/
def attachPartition (s : ClusterState) (toTable : String) (p : String) : ClusterState :=
  { s with parts := fun t => if t == toTable then insertPart (s.parts t) p else s.parts t }

/-- Effect of ALTER TABLE fromTable DROP PARTITION p on the catalog. -/
def dropPartition (s : ClusterState) (fromTable : String) (p : String) : ClusterState :=
  { s with parts := fun t =>
      if t == fromTable then (s.parts t).filter (fun x => !(x == p)) else s.parts t }

/-- The mover's loop over the enumerated partitions: for each one,
attach into the destination, then drop from the source, recording the
issued statements in order. -/
def movePartitionsLoop (from_table to_table : String) :
    ClusterState → List String → ClusterState × List MoveStmt
  | s, [] => (s, [])
  | s, p :: rest =>
    let s1 := attachPartition s to_table p
    let s2 := dropPartition s1 from_table p
    let res := movePartitionsLoop from_table to_table s2 rest
    (res.1, MoveStmt.attachStmt to_table p from_table :: MoveStmt.dropStmt from_table p :: res.2)

/-- Partition mover (move_partitions in the source): asserts that no
merges run on the source table (raising without moving anything
otherwise), enumerates the distinct active partitions of the source
table, and for each one attaches it into the destination before
dropping it from the source. -/
def move_partitions (s : ClusterState) (from_table to_table : String) :
    Except String (ClusterState × List MoveStmt) :=
  if s.merges from_table == 0 then
    .ok (movePartitionsLoop from_table to_table s ((s.parts from_table).dedup))
  else
    .error ("No merges should be running on tables while partitions are being moved. table="
      ++ from_table)

/-- Effect on the catalog of one atomic RENAME TABLE a TO b, c TO d
statement: both renames are applied simultaneously.  The semantics of
the external store's rename is modelled after the spec. -/
def applyRename (s : ClusterState) (rename_1 rename_2 : String × String) : ClusterState :=
  let e1 := s.engines rename_1.1
  let e2 := s.engines rename_2.1
  let p1 := s.parts rename_1.1
  let p2 := s.parts rename_2.1
  { engines := fun t =>
      if t == rename_1.2 then e1
      else if t == rename_2.2 then e2
      else if t == rename_1.1 || t == rename_2.1 then none
      else s.engines t,
    merges := s.merges,
    parts := fun t =>
      if t == rename_1.2 then p1
      else if t == rename_2.2 then p2
      else if t == rename_1.1 || t == rename_2.1 then []
      else s.parts t }

/-- Truthiness of the optional verify argument, as Python evaluates it:
None and the empty string are falsy. -/
def truthyStr : Option String → Bool
  | none => false
  | some v => !(v == "")

/-- Rename helper (rename_tables in the source): when a verify table is
given and absent from the catalog, returns without issuing anything;
otherwise issues the single two-pair rename statement.  The returned
list records the issued rename statements. -/
def rename_tables (s : ClusterState) (rename_1 rename_2 : String × String)
    (verify_table_exists : Option String) :
    ClusterState × List ((String × String) × (String × String)) :=
  if truthyStr verify_table_exists
      && (get_current_engine s (verify_table_exists.getD "")).isNone then
    (s, [])
  else
    (applyRename s rename_1 rename_2, [(rename_1, rename_2)])

/-! ## The descriptor catalog

The engine specs and create-table statements referenced by
tables_to_migrate live in the ee.clickhouse.sql modules, which are not
among the supplied sources; their values are modelled from the spec as
fixed placeholder texts.  Only their identities matter for the claims. -/

/-- Modelled from the spec: engine spec of the sharded events data table. -/
def EVENTS_DATA_TABLE_ENGINE : MergeTreeEngine :=
  { beforeKey := "ReplicatedReplacingMergeTree('/clickhouse/tables/", afterKey := "/sharded_events', 'r1', _timestamp)" }

/-- Modelled from the spec: engine spec of the sharded session recording data table. -/
def SESSION_RECORDING_EVENTS_DATA_TABLE_ENGINE : MergeTreeEngine :=
  { beforeKey := "ReplicatedReplacingMergeTree('/clickhouse/tables/", afterKey := "/sharded_session_recording_events', 'r1', _timestamp)" }

/-- Modelled from the spec: engine spec of the dead letter queue table. -/
def DEAD_LETTER_QUEUE_TABLE_ENGINE : MergeTreeEngine :=
  { beforeKey := "ReplicatedReplacingMergeTree('/clickhouse/tables/", afterKey := "/events_dead_letter_queue', 'r1', _timestamp)" }

/-- Modelled from the spec: engine spec of the groups table. -/
def GROUPS_TABLE_ENGINE : MergeTreeEngine :=
  { beforeKey := "ReplicatedReplacingMergeTree('/clickhouse/tables/", afterKey := "/groups', 'r1', _timestamp)" }

/-- Modelled from the spec: engine spec of the person table. -/
def PERSONS_TABLE_ENGINE : MergeTreeEngine :=
  { beforeKey := "ReplicatedReplacingMergeTree('/clickhouse/tables/", afterKey := "/person', 'r1', version)" }

/-- Modelled from the spec: engine spec of the person_distinct_id2 table. -/
def PERSON_DISTINCT_ID2_TABLE_ENGINE : MergeTreeEngine :=
  { beforeKey := "ReplicatedReplacingMergeTree('/clickhouse/tables/", afterKey := "/person_distinct_id2', 'r1', version)" }

/-- Modelled from the spec: engine spec of the plugin_log_entries table. -/
def PLUGIN_LOG_ENTRIES_TABLE_ENGINE : MergeTreeEngine :=
  { beforeKey := "ReplicatedReplacingMergeTree('/clickhouse/tables/", afterKey := "/plugin_log_entries', 'r1', _timestamp)" }

/-- Modelled from the spec: engine spec of the cohortpeople table. -/
def COHORTPEOPLE_TABLE_ENGINE : MergeTreeEngine :=
  { beforeKey := "ReplicatedCollapsingMergeTree('/clickhouse/tables/", afterKey := "/cohortpeople', 'r1', sign)" }

/-- Modelled from the spec: engine spec of the person_static_cohort table. -/
def PERSON_STATIC_COHORT_TABLE_ENGINE : MergeTreeEngine :=
  { beforeKey := "ReplicatedReplacingMergeTree('/clickhouse/tables/", afterKey := "/person_static_cohort', 'r1', _timestamp)" }

/-- Modelled from the spec: create statement for the events ingestion table. -/
def KAFKA_EVENTS_TABLE_SQL : String := "CREATE TABLE IF NOT EXISTS kafka_events ON CLUSTER posthog AS events ENGINE = Kafka"

/-- Modelled from the spec: create statement for the session recording ingestion table. -/
def KAFKA_SESSION_RECORDING_EVENTS_TABLE_SQL : String := "CREATE TABLE IF NOT EXISTS kafka_session_recording_events ON CLUSTER posthog AS session_recording_events ENGINE = Kafka"

/-- Modelled from the spec: create statement for the dead letter queue ingestion table. -/
def KAFKA_DEAD_LETTER_QUEUE_TABLE_SQL : String := "CREATE TABLE IF NOT EXISTS kafka_events_dead_letter_queue ON CLUSTER posthog AS events_dead_letter_queue ENGINE = Kafka"

/-- Modelled from the spec: create statement for the groups ingestion table. -/
def KAFKA_GROUPS_TABLE_SQL : String := "CREATE TABLE IF NOT EXISTS kafka_groups ON CLUSTER posthog AS groups ENGINE = Kafka"

/-- Modelled from the spec: create statement for the person ingestion table. -/
def KAFKA_PERSONS_TABLE_SQL : String := "CREATE TABLE IF NOT EXISTS kafka_person ON CLUSTER posthog AS person ENGINE = Kafka"

/-- Modelled from the spec: create statement for the person_distinct_id2 ingestion table. -/
def KAFKA_PERSON_DISTINCT_ID2_TABLE_SQL : String := "CREATE TABLE IF NOT EXISTS kafka_person_distinct_id2 ON CLUSTER posthog AS person_distinct_id2 ENGINE = Kafka"

/-- Modelled from the spec: create statement for the plugin_log_entries ingestion table. -/
def KAFKA_PLUGIN_LOG_ENTRIES_TABLE_SQL : String := "CREATE TABLE IF NOT EXISTS kafka_plugin_log_entries ON CLUSTER posthog AS plugin_log_entries ENGINE = Kafka"

/-- Modelled from the spec: create statement for the writable events facade. -/
def WRITABLE_EVENTS_TABLE_SQL : String := "CREATE TABLE IF NOT EXISTS writable_events ON CLUSTER posthog AS sharded_events ENGINE = Distributed"

/-- Modelled from the spec: create statement for the distributed events facade. -/
def DISTRIBUTED_EVENTS_TABLE_SQL : String := "CREATE TABLE IF NOT EXISTS events ON CLUSTER posthog AS sharded_events ENGINE = Distributed"

/-- Modelled from the spec: create statement for the events materialized view. -/
def EVENTS_TABLE_MV_SQL : String := "CREATE MATERIALIZED VIEW IF NOT EXISTS events_mv ON CLUSTER posthog TO writable_events AS SELECT FROM kafka_events"

/-- Modelled from the spec: create statement for the writable session recording facade. -/
def WRITABLE_SESSION_RECORDING_EVENTS_TABLE_SQL : String := "CREATE TABLE IF NOT EXISTS writable_session_recording_events ON CLUSTER posthog AS sharded_session_recording_events ENGINE = Distributed"

/-- Modelled from the spec: create statement for the distributed session recording facade. -/
def DISTRIBUTED_SESSION_RECORDING_EVENTS_TABLE_SQL : String := "CREATE TABLE IF NOT EXISTS session_recording_events ON CLUSTER posthog AS sharded_session_recording_events ENGINE = Distributed"

/-- Modelled from the spec: create statement for the session recording materialized view. -/
def SESSION_RECORDING_EVENTS_TABLE_MV_SQL : String := "CREATE MATERIALIZED VIEW IF NOT EXISTS session_recording_events_mv ON CLUSTER posthog TO writable_session_recording_events AS SELECT FROM kafka_session_recording_events"

/-- The static descriptor catalog (tables_to_migrate in the source), in
catalog order. -/
def tables_to_migrate : List TableMigrationData :=
  [{ name := "events",
     new_table_engine := EVENTS_DATA_TABLE_ENGINE,
     kafka_table_name := some "kafka_events",
     create_kafka_table := some KAFKA_EVENTS_TABLE_SQL,
     sharded := some
       { rename_to := "sharded_events",
         extra_tables := [("writable_events", WRITABLE_EVENTS_TABLE_SQL),
                          ("events", DISTRIBUTED_EVENTS_TABLE_SQL)],
         materialized_view_name := "events_mv",
         create_materialized_view := EVENTS_TABLE_MV_SQL } },
   { name := "session_recording_events",
     new_table_engine := SESSION_RECORDING_EVENTS_DATA_TABLE_ENGINE,
     kafka_table_name := some "kafka_session_recording_events",
     create_kafka_table := some KAFKA_SESSION_RECORDING_EVENTS_TABLE_SQL,
     sharded := some
       { rename_to := "sharded_session_recording_events",
         extra_tables := [("writable_session_recording_events", WRITABLE_SESSION_RECORDING_EVENTS_TABLE_SQL),
                          ("session_recording_events", DISTRIBUTED_SESSION_RECORDING_EVENTS_TABLE_SQL)],
         materialized_view_name := "session_recording_events_mv",
         create_materialized_view := SESSION_RECORDING_EVENTS_TABLE_MV_SQL } },
   { name := "events_dead_letter_queue",
     new_table_engine := DEAD_LETTER_QUEUE_TABLE_ENGINE,
     kafka_table_name := some "kafka_events_dead_letter_queue",
     create_kafka_table := some KAFKA_DEAD_LETTER_QUEUE_TABLE_SQL,
     sharded := none },
   { name := "groups",
     new_table_engine := GROUPS_TABLE_ENGINE,
     kafka_table_name := some "kafka_groups",
     create_kafka_table := some KAFKA_GROUPS_TABLE_SQL,
     sharded := none },
   { name := "person",
     new_table_engine := PERSONS_TABLE_ENGINE,
     kafka_table_name := some "kafka_person",
     create_kafka_table := some KAFKA_PERSONS_TABLE_SQL,
     sharded := none },
   { name := "person_distinct_id2",
     new_table_engine := PERSON_DISTINCT_ID2_TABLE_ENGINE,
     kafka_table_name := some "kafka_person_distinct_id2",
     create_kafka_table := some KAFKA_PERSON_DISTINCT_ID2_TABLE_SQL,
     sharded := none },
   { name := "plugin_log_entries",
     new_table_engine := PLUGIN_LOG_ENTRIES_TABLE_ENGINE,
     kafka_table_name := some "kafka_plugin_log_entries",
     create_kafka_table := some KAFKA_PLUGIN_LOG_ENTRIES_TABLE_SQL,
     sharded := none },
   { name := "cohortpeople",
     new_table_engine := COHORTPEOPLE_TABLE_ENGINE,
     kafka_table_name := none,
     create_kafka_table := none,
     sharded := none },
   { name := "person_static_cohort",
     new_table_engine := PERSON_STATIC_COHORT_TABLE_ENGINE,
     kafka_table_name := none,
     create_kafka_table := none,
     sharded := none }]

/-- The global operation plan (Migration.operations in the source):
stop merges, disable the materialized-columns flag, all phase-1 blocks
in catalog order, all phase-2 blocks in catalog order, a second
flag-disabling toggle, and start merges. -/
def operations (s : ClusterState) (ts : String) : Except String (List Op) :=
  match buildTableOps s ts tables_to_migrate with
  | .error e => .error e
  | .ok tableOps =>
    .ok ([Op.sqlOp "SYSTEM STOP MERGES" (some "SYSTEM START MERGES"),
          Op.fnOp (Action.setFlag false) (Action.setFlag true)]
      ++ tableOps
      ++ buildFinalizeOps tables_to_migrate
      ++ [Op.fnOp (Action.setFlag false) (Action.setFlag true),
          Op.sqlOp "SYSTEM START MERGES" (some "SYSTEM STOP MERGES")])

end Migration

/-! ## Concrete cluster states used by witnesses and counterexamples -/

set_option maxRecDepth 10000

/-- A single-node catalog in which every table reports a plain
maintained engine with one trailing clause. -/
def cat0 : ClusterState :=
  { engines := fun _ => some "MergeTree(x) ORDER BY y",
    merges := fun _ => 0,
    parts := fun _ => [] }

/-- A catalog that differs from cat0 outside the migrated tables. -/
def cat1 : ClusterState :=
  { engines := fun n => if n == "some_other_table" then none else some "MergeTree(x) ORDER BY y",
    merges := fun _ => 7,
    parts := fun _ => ["p0"] }

/-- A catalog with no tables at all. -/
def catEmpty : ClusterState :=
  { engines := fun _ => none, merges := fun _ => 0, parts := fun _ => [] }

/-- A catalog whose tables all have one running merge. -/
def catBusy : ClusterState :=
  { engines := fun _ => some "MergeTree(x) ORDER BY y",
    merges := fun _ => 1,
    parts := fun _ => [] }

/-- The cohortpeople descriptor of the catalog: no ingestion table and
not sharded. -/
def cohortpeople_data : TableMigrationData :=
  { name := "cohortpeople",
    new_table_engine := Migration.COHORTPEOPLE_TABLE_ENGINE,
    kafka_table_name := none,
    create_kafka_table := none,
    sharded := none }

/-- The cohortpeople descriptor is literally the eighth catalog entry. -/
theorem cohortpeople_data_in_catalog :
    Migration.tables_to_migrate[7]? = some cohortpeople_data := by decide

/-! ## C8 -/

/-- C8: the precondition check fails exactly when the replication flag
is disabled or more than one node is visible; two nodes produce the
explanatory failure message, and one node with the flag enabled passes. -/
theorem precheck_gate :
    ∀ (replication : Bool) (nodes : Nat),
      ((Migration.precheck replication nodes).1 = false ↔ (replication = false ∨ 1 < nodes)) ∧
      Migration.precheck true 2 =
        (false, some "ClickHouse cluster should only contain one node at the time of this migration, found 2") ∧
      Migration.precheck true 1 = (true, none) := by
  intro replication nodes
  refine ⟨?_, by decide, by decide⟩
  cases replication with
  | false => simp [Migration.precheck]
  | true =>
    by_cases hn : nodes > 1
    · simp [Migration.precheck, hn]
    · simp [Migration.precheck, hn]

/-! ## C10 -/

/-- C10: when the events table is absent the required-ness check raises
(the membership test is applied to None); when it is present the check
returns a verdict, so it is total exactly under that precondition. -/
theorem is_required_needs_events_table :
    ∀ s : ClusterState,
      (s.engines "events" = none →
        Migration.is_required s = .error "TypeError: argument of type NoneType is not iterable") ∧
      (∀ engine, s.engines "events" = some engine →
        Migration.is_required s = .ok (!(hasSub "Distributed".toList engine.toList))) := by
  intro s
  constructor
  · intro h
    unfold Migration.is_required Migration.get_current_engine
    rw [h]
  · intro engine h
    unfold Migration.is_required Migration.get_current_engine
    rw [h]

/-- Witness for C10 at concrete catalogs: an absent events table makes
the check raise; a present one yields a verdict. -/
theorem is_required_needs_events_table_witness :
    Migration.is_required catEmpty = .error "TypeError: argument of type NoneType is not iterable" ∧
    Migration.is_required cat0 = .ok true := by
  constructor
  · exact (is_required_needs_events_table catEmpty).1 rfl
  · have h := (is_required_needs_events_table cat0).2 "MergeTree(x) ORDER BY y" rfl
    rw [h]
    have hb : (!hasSub "Distributed".toList "MergeTree(x) ORDER BY y".toList) = true := by decide
    rw [hb]

/-! ## C5 -/

/-- C5 counterexample: the derived names carry the fixed migration-id
suffix, not a timestamp-derived one; the derivation reads nothing but
the table name, so a later run derives exactly the same strings. -/
theorem derived_names_no_timestamp_counterexample :
    Migration.tables_to_migrate[0]?.map
      (fun t => (t.backup_table_name, t.tmp_table_name)) =
      some ("events_backup_0004_replicated_schema", "events_tmp_0004_replicated_schema") := by
  decide

/-- C5 (amended): the derived temporary and backup names are distinct
from the table name and from each other, and determine the table name
injectively, so they are unique per table within a run; they carry the
fixed migration-id suffix and are identical across runs. -/
theorem derived_names_unique_per_table :
    ∀ t u : TableMigrationData,
      t.tmp_table_name ≠ t.name ∧
      t.backup_table_name ≠ t.name ∧
      t.tmp_table_name ≠ t.backup_table_name ∧
      (t.tmp_table_name = u.tmp_table_name → t.name = u.name) ∧
      (t.backup_table_name = u.backup_table_name → t.name = u.name) := by
  intro t u
  refine ⟨?_, ?_, ?_, ?_, ?_⟩
  · intro h
    have hl := congrArg String.length h
    unfold TableMigrationData.tmp_table_name at hl
    rw [String.length_append] at hl
    have hs : ("_tmp_0004_replicated_schema" : String).length = 27 := by decide
    rw [hs] at hl
    omega
  · intro h
    have hl := congrArg String.length h
    unfold TableMigrationData.backup_table_name at hl
    rw [String.length_append] at hl
    have hs : ("_backup_0004_replicated_schema" : String).length = 30 := by decide
    rw [hs] at hl
    omega
  · intro h
    have hd := congrArg String.data h
    unfold TableMigrationData.tmp_table_name TableMigrationData.backup_table_name at hd
    rw [String.data_append, String.data_append] at hd
    have := List.append_cancel_left hd
    simp at this
  · intro h
    have hd := congrArg String.data h
    unfold TableMigrationData.tmp_table_name at hd
    rw [String.data_append, String.data_append] at hd
    have := List.append_cancel_right hd
    exact String.ext this
  · intro h
    have hd := congrArg String.data h
    unfold TableMigrationData.backup_table_name at hd
    rw [String.data_append, String.data_append] at hd
    have := List.append_cancel_right hd
    exact String.ext this

/-- Witness for C5 at two concrete descriptors from the catalog. -/
theorem derived_names_unique_per_table_witness :
    cohortpeople_data.tmp_table_name ≠ cohortpeople_data.name ∧
    cohortpeople_data.name = cohortpeople_data.name :=
  ⟨(derived_names_unique_per_table cohortpeople_data cohortpeople_data).1,
   (derived_names_unique_per_table cohortpeople_data cohortpeople_data).2.2.2.1 rfl⟩

/-! ## C3 -/

/-- Backup table names are never the empty string, so the verify
argument of the rename rollback is always truthy. -/
theorem backup_table_name_ne_empty (t : TableMigrationData) :
    t.backup_table_name ≠ "" := by
  intro h
  have hl := congrArg String.length h
  unfold TableMigrationData.backup_table_name at hl
  rw [String.length_append] at hl
  have hs : ("_backup_0004_replicated_schema" : String).length = 30 := by decide
  have h0 : ("" : String).length = 0 := rfl
  rw [hs, h0] at hl
  omega

/-- C3: the phase-1 rename rollback first consults the catalog for the
backup table; when it is absent the rollback returns without issuing
any rename, and when it is present the rollback issues the single
two-pair inverse rename statement. -/
theorem rename_rollback_checks_backup :
    ∀ (s : ClusterState) (t : TableMigrationData),
      (Migration.get_current_engine s t.backup_table_name = none →
        Migration.rename_tables s (t.renamed_table_name, t.tmp_table_name)
          (t.backup_table_name, t.name) (some t.backup_table_name) = (s, [])) ∧
      (∀ engine, Migration.get_current_engine s t.backup_table_name = some engine →
        Migration.rename_tables s (t.renamed_table_name, t.tmp_table_name)
          (t.backup_table_name, t.name) (some t.backup_table_name) =
          (Migration.applyRename s (t.renamed_table_name, t.tmp_table_name)
            (t.backup_table_name, t.name),
           [((t.renamed_table_name, t.tmp_table_name), (t.backup_table_name, t.name))])) := by
  intro s t
  have htruthy : Migration.truthyStr (some t.backup_table_name) = true := by
    unfold Migration.truthyStr
    simp only [Bool.not_eq_true']
    exact beq_eq_false_iff_ne.mpr (backup_table_name_ne_empty t)
  constructor
  · intro h
    unfold Migration.rename_tables
    rw [htruthy]
    simp only [Option.getD_some, h, Option.isNone_none, Bool.true_and, if_true]
  · intro engine h
    unfold Migration.rename_tables
    rw [htruthy]
    simp only [Option.getD_some, h, Option.isNone_some, Bool.true_and]
    simp

/-- Witness for C3: with the backup table absent, invoking the rename
rollback for the cohortpeople descriptor is a no-op. -/
theorem rename_rollback_checks_backup_witness :
    Migration.rename_tables catEmpty
      (cohortpeople_data.renamed_table_name, cohortpeople_data.tmp_table_name)
      (cohortpeople_data.backup_table_name, cohortpeople_data.name)
      (some cohortpeople_data.backup_table_name) = (catEmpty, []) :=
  (rename_rollback_checks_backup catEmpty cohortpeople_data).1 rfl

/-! ## C4 -/

/-- C4 (amended): a descriptor with no ingestion table, not sharded
(hence no materialized view), expands to exactly three phase-1
operations (create tmp, move partitions, rename; the skipped ingestion
step contributes none) and zero phase-2 operations, three in total. -/
theorem plain_table_plan_sizes :
    ∀ (s : ClusterState) (ts : String) (t : TableMigrationData),
      t.kafka_table_name = none → t.sharded = none →
      (∀ ops, Migration.replicated_table_operations s ts t = .ok ops → ops.length = 3) ∧
      Migration.finalize_table_operations t = [] := by
  intro s ts t hkafka hsharded
  constructor
  · intro ops h
    unfold Migration.replicated_table_operations at h
    cases he : Migration.get_new_engine s ts t with
    | error e => rw [he] at h; exact absurd h (by simp)
    | ok engine =>
      rw [he] at h
      simp only [hkafka, Except.ok.injEq] at h
      rw [← h]
      rfl
  · unfold Migration.finalize_table_operations
    rw [hkafka, hsharded]
    rfl

/-- C4 counterexample: for the cohortpeople descriptor (no ingestion
table, not sharded) the phase-1 block has three operations and the
phase-2 block none, so the per-table total is three, not four. -/
theorem plain_table_plan_not_four :
    (Migration.replicated_table_operations cat0 "20220101" cohortpeople_data).toOption.map
      List.length = some 3 ∧
    Migration.finalize_table_operations cohortpeople_data = [] ∧
    (3 : Nat) + 0 ≠ 4 := by
  refine ⟨by decide, by decide, by decide⟩

/-- Witness for C4 at the cohortpeople descriptor over a concrete catalog. -/
theorem plain_table_plan_sizes_witness :
    (∃ ops, Migration.replicated_table_operations cat0 "20220101" cohortpeople_data = .ok ops ∧
      ops.length = 3) ∧
    Migration.finalize_table_operations cohortpeople_data = [] := by
  have h := plain_table_plan_sizes cat0 "20220101" cohortpeople_data rfl rfl
  constructor
  · cases hx : Migration.replicated_table_operations cat0 "20220101" cohortpeople_data with
    | error e =>
      exfalso
      have hlen : (Migration.replicated_table_operations cat0 "20220101"
          cohortpeople_data).toOption.map List.length = some 3 := by decide
      rw [hx] at hlen
      simp [Except.toOption] at hlen
    | ok ops => exact ⟨ops, rfl, h.1 ops hx⟩
  · exact h.2

/-! ## C1 -/

/-- C1 (amended): the global plan opens with the stop-merges /
start-merges reversible pair and the flag-disabling toggle, then all
tables' phase-1 blocks in catalog order, then all phase-2 blocks in
catalog order, then a second toggle whose forward action forces the
flag off again (its rollback re-enables it), and closes with the
start-merges operation. -/
theorem operations_global_plan_shape :
    ∀ (s : ClusterState) (ts : String) (l : List Migration.Op),
      Migration.operations s ts = .ok l →
      ∃ tableOps,
        Migration.buildTableOps s ts Migration.tables_to_migrate = .ok tableOps ∧
        l = [Migration.Op.sqlOp "SYSTEM STOP MERGES" (some "SYSTEM START MERGES"),
             Migration.Op.fnOp (Migration.Action.setFlag false) (Migration.Action.setFlag true)]
            ++ tableOps
            ++ Migration.buildFinalizeOps Migration.tables_to_migrate
            ++ [Migration.Op.fnOp (Migration.Action.setFlag false) (Migration.Action.setFlag true),
                Migration.Op.sqlOp "SYSTEM START MERGES" (some "SYSTEM STOP MERGES")] := by
  intro s ts l h
  unfold Migration.operations at h
  cases hb : Migration.buildTableOps s ts Migration.tables_to_migrate with
  | error e => rw [hb] at h; exact absurd h (by simp)
  | ok tableOps =>
    rw [hb] at h
    simp only [Except.ok.injEq] at h
    exact ⟨tableOps, rfl, h.symm⟩

/-- C1 counterexample: on a concrete catalog the plan has 53 operations
and the operation immediately before the final start-merges toggle sets
the flag to false (disabled); a toggle whose forward action re-enables
the flag would be setFlag true, which is a different action. -/
theorem operations_penultimate_disables_counterexample :
    (Migration.operations cat0 "20220101").toOption.map (fun l => (l.length, l[51]?)) =
      some (53, some (Migration.Op.fnOp (Migration.Action.setFlag false)
        (Migration.Action.setFlag true))) ∧
    Migration.Action.setFlag false ≠ Migration.Action.setFlag true := by
  refine ⟨by decide, by decide⟩

/-- Witness for C1: the plan over a concrete catalog builds
successfully and starts with the stop-merges operation. -/
theorem operations_global_plan_shape_witness :
    ∃ l, Migration.operations cat0 "20220101" = .ok l ∧
      l.head? = some (Migration.Op.sqlOp "SYSTEM STOP MERGES" (some "SYSTEM START MERGES")) := by
  cases hx : Migration.operations cat0 "20220101" with
  | error e =>
    exfalso
    have hlen : (Migration.operations cat0 "20220101").toOption.map List.length = some 53 := by
      decide
    rw [hx] at hlen
    simp [Except.toOption] at hlen
  | ok l =>
    obtain ⟨tableOps, _, hl⟩ := operations_global_plan_shape cat0 "20220101" l hx
    exact ⟨l, rfl, by rw [hl]; rfl⟩

/-! ## C6 -/

/-- The engine substitution reads the catalog only at the table's name. -/
theorem get_new_engine_congr {s1 s2 : ClusterState} (ts : String) (t : TableMigrationData)
    (h : s1.engines t.name = s2.engines t.name) :
    Migration.get_new_engine s1 ts t = Migration.get_new_engine s2 ts t := by
  unfold Migration.get_new_engine Migration.get_current_engine
  rw [h]

/-- A table's phase-1 block reads the catalog only at the table's name. -/
theorem replicated_table_operations_congr {s1 s2 : ClusterState} (ts : String)
    (t : TableMigrationData) (h : s1.engines t.name = s2.engines t.name) :
    Migration.replicated_table_operations s1 ts t =
      Migration.replicated_table_operations s2 ts t := by
  unfold Migration.replicated_table_operations
  rw [get_new_engine_congr ts t h]

/-- Concatenated phase-1 blocks read the catalog only at the listed
tables' names. -/
theorem buildTableOps_congr {s1 s2 : ClusterState} (ts : String) :
    ∀ L : List TableMigrationData,
      (∀ t ∈ L, s1.engines t.name = s2.engines t.name) →
      Migration.buildTableOps s1 ts L = Migration.buildTableOps s2 ts L := by
  intro L
  induction L with
  | nil => intro _; rfl
  | cons t rest ih =>
    intro h
    have ht : s1.engines t.name = s2.engines t.name := h t (by simp)
    have hrest : ∀ u ∈ rest, s1.engines u.name = s2.engines u.name :=
      fun u hu => h u (by simp [hu])
    unfold Migration.buildTableOps
    rw [replicated_table_operations_congr ts t ht, ih hrest]

/-- C6 (amended): the plan is a function of the catalog's state at the
migrated tables and of the construction timestamp; two expansions over
catalogs that agree on the migrated tables, at the same timestamp,
yield identical operation lists.  It is not independent of the
timestamp (see the counterexample): the create-table statements embed
the timestamp-derived zookeeper-path key. -/
theorem operations_deterministic_given_catalog :
    ∀ (s1 s2 : ClusterState) (ts : String),
      (∀ t ∈ Migration.tables_to_migrate, s1.engines t.name = s2.engines t.name) →
      Migration.operations s1 ts = Migration.operations s2 ts := by
  intro s1 s2 ts h
  unfold Migration.operations
  rw [buildTableOps_congr ts Migration.tables_to_migrate h]

/-- C6 counterexample: the same catalog expanded at two different
timestamps yields different operation lists, so the plan is not
determined by cluster state alone and an interrupted run rebuilt later
does not reproduce the identical list. -/
theorem operations_depend_on_timestamp_counterexample :
    (Migration.operations cat0 "20220101").toOption ≠
      (Migration.operations cat0 "20220102").toOption := by
  decide

/-- Witness for C6: two catalogs differing outside the migrated tables
produce the same plan at the same timestamp. -/
theorem operations_deterministic_given_catalog_witness :
    Migration.operations cat0 "20220101" = Migration.operations cat1 "20220101" :=
  operations_deterministic_given_catalog cat0 cat1 "20220101" (by decide)

/-! ## C2 -/

/-- The statements issued by the mover's loop: for each enumerated
partition, an attach into the destination followed by a drop from the
source. -/
theorem movePartitionsLoop_trace (from_table to_table : String) :
    ∀ (ps : List String) (s : ClusterState),
      (Migration.movePartitionsLoop from_table to_table s ps).2 =
        ps.flatMap (fun p => [Migration.MoveStmt.attachStmt to_table p from_table,
                              Migration.MoveStmt.dropStmt from_table p]) := by
  intro ps
  induction ps with
  | nil => intro s; rfl
  | cons p rest ih =>
    intro s
    simp only [Migration.movePartitionsLoop, List.flatMap_cons]
    rw [ih]
    rfl

/-- In a flat-mapped attach-drop trace, every drop of a partition is
preceded by the attach of that partition. -/
theorem flat_trace_attach_before_drop (from_table to_table : String) :
    ∀ (ps : List String) (j : Nat) (p : String),
      (ps.flatMap (fun q => [Migration.MoveStmt.attachStmt to_table q from_table,
                             Migration.MoveStmt.dropStmt from_table q]))[j]? =
        some (Migration.MoveStmt.dropStmt from_table p) →
      ∃ i, i < j ∧
        (ps.flatMap (fun q => [Migration.MoveStmt.attachStmt to_table q from_table,
                               Migration.MoveStmt.dropStmt from_table q]))[i]? =
          some (Migration.MoveStmt.attachStmt to_table p from_table) := by
  intro ps
  induction ps with
  | nil => intro j p h; simp at h
  | cons q rest ih =>
    intro j p h
    simp only [List.flatMap_cons, List.cons_append, List.nil_append] at h ⊢
    match j with
    | 0 =>
      rw [List.getElem?_cons_zero] at h
      exact absurd h (by simp)
    | 1 =>
      rw [List.getElem?_cons_succ, List.getElem?_cons_zero] at h
      simp only [Option.some.injEq, Migration.MoveStmt.dropStmt.injEq] at h
      refine ⟨0, by omega, ?_⟩
      rw [List.getElem?_cons_zero]
      rw [h.2]
    | n + 2 =>
      rw [List.getElem?_cons_succ, List.getElem?_cons_succ] at h
      obtain ⟨i, hi, hget⟩ := ih n p h
      refine ⟨i + 2, by omega, ?_⟩
      rw [List.getElem?_cons_succ, List.getElem?_cons_succ]
      exact hget

/-- C2: the partition mover first asserts the running-merge count of
the source table is zero, raising without moving anything otherwise;
on the success path it enumerates the distinct active partitions of the
source table and, for every one, issues the attach into the destination
strictly before the drop from the source. -/
theorem move_partitions_attach_then_drop :
    ∀ (s : ClusterState) (from_table to_table : String),
      (s.merges from_table ≠ 0 →
        Migration.move_partitions s from_table to_table =
          .error ("No merges should be running on tables while partitions are being moved. table="
            ++ from_table)) ∧
      (∀ s2 tr, Migration.move_partitions s from_table to_table = .ok (s2, tr) →
        s.merges from_table = 0 ∧
        tr = ((s.parts from_table).dedup).flatMap
          (fun p => [Migration.MoveStmt.attachStmt to_table p from_table,
                     Migration.MoveStmt.dropStmt from_table p]) ∧
        (∀ (j : Nat) (p : String), tr[j]? = some (Migration.MoveStmt.dropStmt from_table p) →
          ∃ i, i < j ∧ tr[i]? = some (Migration.MoveStmt.attachStmt to_table p from_table))) := by
  intro s from_table to_table
  constructor
  · intro h
    unfold Migration.move_partitions
    rw [if_neg (by simpa using h)]
  · intro s2 tr h
    unfold Migration.move_partitions at h
    by_cases hm : s.merges from_table = 0
    · rw [if_pos (by simpa using hm)] at h
      simp only [Except.ok.injEq, Prod.mk.injEq] at h
      have h2 := congrArg Prod.snd h
      simp only at h2
      have htr : tr = ((s.parts from_table).dedup).flatMap
          (fun p => [Migration.MoveStmt.attachStmt to_table p from_table,
                     Migration.MoveStmt.dropStmt from_table p]) := by
        rw [← h2, movePartitionsLoop_trace]
      subst htr
      refine ⟨hm, rfl, ?_⟩
      intro j p hj
      exact flat_trace_attach_before_drop from_table to_table _ j p hj
    · rw [if_neg (by simpa using hm)] at h
      exact absurd h (by simp)

/-- Witness for C2: with one running merge on the source table the
mover raises the fatal assertion message. -/
theorem move_partitions_attach_then_drop_witness :
    Migration.move_partitions catBusy "events" "events_tmp_0004_replicated_schema" =
      .error ("No merges should be running on tables while partitions are being moved. table="
        ++ "events") :=
  (move_partitions_attach_then_drop catBusy "events" "events_tmp_0004_replicated_schema").1
    (by decide)

/-! ## C7 -/

theorem attachPartition_parts_same (s : ClusterState) (tt p : String) :
    (Migration.attachPartition s tt p).parts tt = Migration.insertPart (s.parts tt) p := by
  unfold Migration.attachPartition
  simp

theorem attachPartition_parts_other (s : ClusterState) (tt p t : String) (h : ¬t = tt) :
    (Migration.attachPartition s tt p).parts t = s.parts t := by
  unfold Migration.attachPartition
  simp [h]

theorem dropPartition_parts_same (s : ClusterState) (ft p : String) :
    (Migration.dropPartition s ft p).parts ft = (s.parts ft).filter (fun x => !(x == p)) := by
  unfold Migration.dropPartition
  simp

theorem dropPartition_parts_other (s : ClusterState) (ft p t : String) (h : ¬t = ft) :
    (Migration.dropPartition s ft p).parts t = s.parts t := by
  unfold Migration.dropPartition
  simp [h]

theorem movePartitionsLoop_merges (ft tt : String) :
    ∀ (ps : List String) (s : ClusterState),
      (Migration.movePartitionsLoop ft tt s ps).1.merges = s.merges := by
  intro ps
  induction ps with
  | nil => intro s; rfl
  | cons p rest ih =>
    intro s
    simp only [Migration.movePartitionsLoop]
    rw [ih]
    rfl

theorem insertPart_mem (l : List String) (p x : String) :
    x ∈ Migration.insertPart l p ↔ x ∈ l ∨ x = p := by
  unfold Migration.insertPart
  by_cases hc : l.contains p = true
  · rw [if_pos hc]
    constructor
    · exact Or.inl
    · intro h
      cases h with
      | inl h => exact h
      | inr h => exact h ▸ List.elem_iff.mp hc
  · rw [if_neg hc]
    simp [List.mem_append]

theorem foldl_insertPart_mem :
    ∀ (ps l : List String) (x : String),
      x ∈ ps.foldl Migration.insertPart l ↔ x ∈ l ∨ x ∈ ps := by
  intro ps
  induction ps with
  | nil => intro l x; simp
  | cons p rest ih =>
    intro l x
    rw [List.foldl_cons, ih, insertPart_mem]
    simp only [List.mem_cons]
    tauto

theorem movePartitionsLoop_parts (ft tt : String) (hne : ft ≠ tt) :
    ∀ (ps : List String) (s : ClusterState),
      (Migration.movePartitionsLoop ft tt s ps).1.parts tt =
        ps.foldl Migration.insertPart (s.parts tt) ∧
      (Migration.movePartitionsLoop ft tt s ps).1.parts ft =
        (s.parts ft).filter (fun x => !(ps.contains x)) := by
  intro ps
  induction ps with
  | nil =>
    intro s
    constructor
    · rfl
    · show s.parts ft = (s.parts ft).filter (fun x => !(([] : List String).contains x))
      simp
  | cons p rest ih =>
    intro s
    have htt : ¬tt = ft := fun h => hne h.symm
    have s2tt : (Migration.dropPartition (Migration.attachPartition s tt p) ft p).parts tt =
        Migration.insertPart (s.parts tt) p := by
      rw [dropPartition_parts_other _ _ _ _ htt, attachPartition_parts_same]
    have s2ft : (Migration.dropPartition (Migration.attachPartition s tt p) ft p).parts ft =
        (s.parts ft).filter (fun x => !(x == p)) := by
      rw [dropPartition_parts_same, attachPartition_parts_other _ _ _ _ hne]
    constructor
    · simp only [Migration.movePartitionsLoop]
      rw [(ih _).1, s2tt, List.foldl_cons]
    · simp only [Migration.movePartitionsLoop]
      rw [(ih _).2, s2ft, List.filter_filter]
      refine List.filter_congr ?_
      intro x _
      show (!(rest.contains x) && !(x == p)) = !((p :: rest).contains x)
      have hcons : (p :: rest).contains x = (x == p || rest.contains x) := rfl
      rw [hcons, Bool.not_or, Bool.and_comm]

/-- C7 counterexample: with a nonempty destination, the round trip does
not restore the source's partition set.  Starting from partitions p1 on
table a and q on table b, moving a to b and back leaves a with both p1
and q. -/
def cs7 : ClusterState :=
  { engines := fun _ => some "MergeTree(x) ORDER BY y",
    merges := fun _ => 0,
    parts := fun t => if t == "a" then ["p1"] else if t == "b" then ["q"] else [] }

/-- C7 counterexample theorem: the claim fails at cs7 because the
partition q, initially on the destination table b, ends up in table a's
active set after the two moves. -/
theorem move_roundtrip_counterexample :
    (match Migration.move_partitions cs7 "a" "b" with
     | .ok (s1, _) =>
       match Migration.move_partitions s1 "b" "a" with
       | .ok (s2, _) => some (s2.parts "a")
       | .error _ => none
     | .error _ => none) = some ["q", "p1"] ∧
    ("q" : String) ∈ (["q", "p1"] : List String) ∧
    ¬(("q" : String) ∈ cs7.parts "a") := by
  refine ⟨by decide, by decide, by decide⟩

/-- C7 (amended): for every catalog state in which the two tables are
distinct, neither has running merges, and the destination's active
partition set is empty (as the sequencer guarantees, the destination
being the freshly created temporary table), moving all partitions from
A to B and back leaves A's active-partition set identical to its
original one. -/
theorem move_roundtrip_restores_source :
    ∀ (s : ClusterState) (A B : String),
      A ≠ B → s.merges A = 0 → s.merges B = 0 → s.parts B = [] →
      ∃ s1 tr1 s2 tr2,
        Migration.move_partitions s A B = .ok (s1, tr1) ∧
        Migration.move_partitions s1 B A = .ok (s2, tr2) ∧
        ∀ p, (p ∈ s2.parts A ↔ p ∈ s.parts A) := by
  intro s A B hAB hmA hmB hBempty
  have hok1 : Migration.move_partitions s A B =
      .ok (Migration.movePartitionsLoop A B s ((s.parts A).dedup)) := by
    unfold Migration.move_partitions
    rw [if_pos (by simpa using hmA)]
  set s1 := (Migration.movePartitionsLoop A B s ((s.parts A).dedup)).1 with hs1
  have hm1B : s1.merges B = 0 := by
    rw [hs1, movePartitionsLoop_merges]
    exact hmB
  have hok2 : Migration.move_partitions s1 B A =
      .ok (Migration.movePartitionsLoop B A s1 ((s1.parts B).dedup)) := by
    unfold Migration.move_partitions
    rw [if_pos (by simpa using hm1B)]
  set s2 := (Migration.movePartitionsLoop B A s1 ((s1.parts B).dedup)).1 with hs2
  refine ⟨s1, _, s2, _, by rw [hok1], by rw [hok2], ?_⟩
  intro p
  have h1 := movePartitionsLoop_parts A B hAB ((s.parts A).dedup) s
  have h2 := movePartitionsLoop_parts B A (Ne.symm hAB) ((s1.parts B).dedup) s1
  have hs1A : s1.parts A = [] := by
    rw [hs1, (h1).2]
    rw [List.filter_eq_nil_iff]
    intro a ha
    simp only [Bool.not_eq_true', Bool.not_eq_false]
    exact List.elem_iff.mpr (List.mem_dedup.mpr ha)
  have hs1B : ∀ x, x ∈ s1.parts B ↔ x ∈ s.parts A := by
    intro x
    rw [hs1, (h1).1, foldl_insertPart_mem, hBempty]
    simp [List.mem_dedup]
  have hs2A : ∀ x, x ∈ s2.parts A ↔ x ∈ s1.parts B := by
    intro x
    rw [hs2, (h2).1, foldl_insertPart_mem, hs1A]
    simp [List.mem_dedup]
  rw [hs2A, hs1B]

/-- Witness for C7 at a concrete catalog with two partitions on the
source and an empty destination. -/
def cs7w : ClusterState :=
  { engines := fun _ => some "MergeTree(x) ORDER BY y",
    merges := fun _ => 0,
    parts := fun t => if t == "a" then ["p1", "p2"] else [] }

/-- Witness theorem for C7: the round trip over cs7w restores the
source's partition set. -/
theorem move_roundtrip_restores_source_witness :
    ∃ s1 tr1 s2 tr2,
      Migration.move_partitions cs7w "a" "b" = .ok (s1, tr1) ∧
      Migration.move_partitions s1 "b" "a" = .ok (s2, tr2) ∧
      ∀ p, (p ∈ s2.parts "a" ↔ p ∈ cs7w.parts "a") :=
  move_roundtrip_restores_source cs7w "a" "b" (by decide) rfl rfl (by decide)

/-! ## C9 -/

/-- C9 (amended): whenever the current engine string decomposes as a
newline-free preamble, one constructor token with a nonempty
close-paren-free argument list, and trailing text containing no further
constructor token, the substitution returns the rendered new engine
text followed verbatim by the trailing clauses.  The newline-free
preamble condition is necessary: the dot of the pattern does not match
newlines, so a preamble line before the constructor would be kept (see
the counterexample). -/
theorem get_new_engine_single_token :
    ∀ (s : ClusterState) (ts : String) (t : TableMigrationData)
      (pre args rest : List Char),
      s.engines t.name = some (String.mk (pre ++ MTlit ++ args ++ ')' :: rest)) →
      (∀ c ∈ pre, ¬c = '\n') → args ≠ [] → (∀ c ∈ args, ¬c = ')') →
      hasSub MTlit (args ++ ')' :: rest) = false →
      Migration.get_new_engine s ts t =
        .ok (String.mk ((t.new_table_engine.render ("am0004_" ++ ts)).toList ++ rest)) := by
  intro s ts t pre args rest h hpre hne hargs hafter
  unfold Migration.get_new_engine Migration.get_current_engine
  rw [h]
  exact congrArg (fun l => Except.ok (String.mk l))
    (pySub_single_token (t.new_table_engine.render ("am0004_" ++ ts)).toList
      pre args rest hpre hne hargs hafter)

/-- A minimal descriptor used to exercise the engine substitution. -/
def tEng : TableMigrationData :=
  { name := "t1",
    new_table_engine := { beforeKey := "NewEngine(", afterKey := ")" },
    kafka_table_name := none,
    create_kafka_table := none,
    sharded := none }

/-- A catalog whose single table has a one-line engine string with one
constructor token and one trailing clause. -/
def catEng : ClusterState :=
  { engines := fun n => if n == "t1" then some "ReplacingMergeTree(ver) ORDER BY id" else none,
    merges := fun _ => 0,
    parts := fun _ => [] }

/-- A catalog whose single table has an engine string with a newline
before its one constructor token. -/
def catEngNl : ClusterState :=
  { engines := fun n => if n == "t1" then some "a\nMergeTree(x) ORDER BY y" else none,
    merges := fun _ => 0,
    parts := fun _ => [] }

/-- Witness for C9: the substitution on the concrete one-line engine
string keeps the trailing clause verbatim after the new engine text. -/
theorem get_new_engine_single_token_witness :
    Migration.get_new_engine catEng "20220101" tEng =
      .ok (String.mk ((tEng.new_table_engine.render ("am0004_" ++ "20220101")).toList
        ++ " ORDER BY id".toList)) :=
  get_new_engine_single_token catEng "20220101" tEng
    "Replacing".toList "ver".toList " ORDER BY id".toList
    (by decide) (by decide) (by decide) (by decide) (by decide)

/-- C9 counterexample: an engine string with a newline before its only
constructor token keeps the preceding line in the output, so the result
is not the new engine text followed by the trailing clauses. -/
theorem get_new_engine_multiline_counterexample :
    catEngNl.engines tEng.name = some "a\nMergeTree(x) ORDER BY y" ∧
    hasSub MTlit "a\nMergeTree(x) ORDER BY y".toList = true ∧
    (Migration.get_new_engine catEngNl "20220101" tEng).toOption =
      some "a\nNewEngine(am0004_20220101) ORDER BY y" ∧
    ("a\nNewEngine(am0004_20220101) ORDER BY y" : String) ≠
      "NewEngine(am0004_20220101) ORDER BY y" := by
  refine ⟨by decide, by decide, by decide, by decide⟩

/-- Witness for C8 at concrete inputs: two nodes fail with the message,
one node with replication enabled passes. -/
theorem precheck_gate_witness :
    Migration.precheck true 2 =
      (false, some "ClickHouse cluster should only contain one node at the time of this migration, found 2") ∧
    Migration.precheck true 1 = (true, none) :=
  ⟨(precheck_gate true 2).2.1, (precheck_gate true 1).2.2⟩
